import Mathlib

/-!
Verification development for the `mcpr-cli` bridge (`src/cli/commands/connect.ts`).

The program bridges a stdio MCP transport to an HTTP MCP server.  We embed the
two components the specification talks about:

* `HttpMcpClient` — builds one HTTP request per logical operation
  (`listTools`, `callTool`, `listResources`, `readResource`, `listPrompts`,
  `getPrompt`), with common headers from `getHeaders`;
* `HttpMcpBridgeServer` — request handlers that delegate to the client and
  wrap failures as `McpError(InternalError, …)`, plus the `start()`-time
  liveness probe `testConnection`.

Strings are modelled as `List Char`.  Effects are modelled explicitly: an
operation returns the list of HTTP requests it issued together with its
result (`Except` for a thrown error), the network being a function from
requests to responses.
-/

namespace Mcpr

/-- JavaScript truthiness of a nullable string: truthy iff present and
non-empty (`if (this.clientName)`, `if (this.token)`). -/
def truthyStr : Option (List Char) → Bool
  | none => false
  | some s => !s.isEmpty

/-- JSON values, the model of the loosely typed payloads (`any` in the
source).  Numbers are modelled as integers; no claim inspects numeric
serialization beyond integers. -/
inductive Json where
  | null
  | bool (b : Bool)
  | num (n : Int)
  | str (s : List Char)
  | arr (elems : List Json)
  | obj (fields : List (List Char × Json))

/-- Lowercase hex digit, used by `JSON.stringify` control-character escapes. -/
def hexLower (n : Nat) : Char :=
  if n < 10 then Char.ofNat (48 + n) else Char.ofNat (87 + n)

/-- Uppercase hex digit, used by `encodeURIComponent` percent escapes. -/
def hexUpper (n : Nat) : Char :=
  if n < 10 then Char.ofNat (48 + n) else Char.ofNat (55 + n)

/-- One character of a JSON string literal, escaped as `JSON.stringify`
does: quote, backslash, the short escapes, `\u00XX` for other control
characters. -/
def escChar (c : Char) : List Char :=
  if c = Char.ofNat 34 then [Char.ofNat 92, Char.ofNat 34]
  else if c = Char.ofNat 92 then [Char.ofNat 92, Char.ofNat 92]
  else if c = Char.ofNat 8 then [Char.ofNat 92, 'b']
  else if c = Char.ofNat 12 then [Char.ofNat 92, 'f']
  else if c = Char.ofNat 10 then [Char.ofNat 92, 'n']
  else if c = Char.ofNat 13 then [Char.ofNat 92, 'r']
  else if c = Char.ofNat 9 then [Char.ofNat 92, 't']
  else if c.val.toNat < 32 then
    [Char.ofNat 92, 'u', '0', '0', hexLower (c.val.toNat / 16), hexLower (c.val.toNat % 16)]
  else [c]

/-- Comma-join of pre-rendered pieces. -/
def joinComma : List (List Char) → List Char
  | [] => []
  | [x] => x
  | x :: y :: xs => x ++ ',' :: joinComma (y :: xs)

mutual

/-- Model of `JSON.stringify` on our `Json` values (the request bodies are
built with `JSON.stringify(args)` in the source). -/
def jsonStringify : Json → List Char
  | Json.null => "null".toList
  | Json.bool true => "true".toList
  | Json.bool false => "false".toList
  | Json.num n => (toString n).toList
  | Json.str s => Char.ofNat 34 :: ((s.map escChar).flatten ++ [Char.ofNat 34])
  | Json.arr xs => '[' :: (joinComma (stringifyElems xs) ++ [']'])
  | Json.obj fs => Char.ofNat 123 :: (joinComma (stringifyFields fs) ++ [Char.ofNat 125])

/-- Rendered elements of a JSON array. -/
def stringifyElems : List Json → List (List Char)
  | [] => []
  | x :: xs => jsonStringify x :: stringifyElems xs

/-- Rendered `"key":value` members of a JSON object. -/
def stringifyFields : List (List Char × Json) → List (List Char)
  | [] => []
  | (k, v) :: fs =>
      (Char.ofNat 34 :: ((k.map escChar).flatten ++ (Char.ofNat 34 :: ':' :: jsonStringify v)))
        :: stringifyFields fs

end

/-- The characters `encodeURIComponent` leaves unescaped:
`A–Z a–z 0–9 - _ . ! ~ * ' ( )`. -/
def uriUnreserved (c : Char) : Bool :=
  let n := c.val.toNat
  (65 ≤ n && n ≤ 90) || (97 ≤ n && n ≤ 122) || (48 ≤ n && n ≤ 57) ||
    n = 45 || n = 95 || n = 46 || n = 33 || n = 126 || n = 42 || n = 39 || n = 40 || n = 41

/-- UTF-8 bytes of a code point (scalar values only, which is all a Lean
`Char` can hold; `encodeURIComponent` throws on lone surrogates, which our
model cannot even form). -/
def utf8Bytes (n : Nat) : List Nat :=
  if n < 128 then [n]
  else if n < 2048 then [192 + n / 64, 128 + n % 64]
  else if n < 65536 then [224 + n / 4096, 128 + n / 64 % 64, 128 + n % 64]
  else [240 + n / 262144, 128 + n / 4096 % 64, 128 + n / 64 % 64, 128 + n % 64]

/-- Percent escape of one byte, uppercase hex. -/
def pctByte (b : Nat) : List Char :=
  ['%', hexUpper (b / 16), hexUpper (b % 16)]

/-- Model of JavaScript `encodeURIComponent`. -/
def encodeURIComponent (s : List Char) : List Char :=
  (s.map (fun c =>
    if uriUnreserved c then [c]
    else ((utf8Bytes c.val.toNat).map pctByte).flatten)).flatten

/-- An outbound HTTP request as the source constructs it with `fetch`:
method, full URL, header list, optional body. -/
structure HttpRequest where
  method : List Char
  url : List Char
  headers : List (List Char × List Char)
  body : Option (List Char)
deriving DecidableEq

/-- An HTTP response as observed through `node-fetch`: status, status text
and the JSON decoding of the body (`none` when the body is not JSON, in
which case `response.json()` rejects). -/
structure HttpResponse where
  status : Nat
  statusText : List Char
  bodyJson : Option Json

/-- `response.ok` of the Fetch API: status in the range 200–299. -/
def respOk (r : HttpResponse) : Bool :=
  200 ≤ r.status && r.status < 300

/-- State of `HttpMcpClient`: base URL, the mutable `clientName` (null until
`setClientInfo`), and the `token` fixed at construction. -/
structure ClientState where
  baseUrl : List Char
  clientName : Option (List Char)
  token : Option (List Char)

/-- `HttpMcpClient.setClientInfo`: stores the name. -/
def setClientInfo (st : ClientState) (name : List Char) : ClientState :=
  { st with clientName := some name }

def contentTypeKey : List Char := "Content-Type".toList

def clientNameKey : List Char := "X-MCP-Client-Name".toList

def tokenKey : List Char := "X-MCP-Token".toList

/-- `HttpMcpClient.getHeaders`: always `Content-Type: application/json`,
then `X-MCP-Client-Name` if `this.clientName` is truthy, then `X-MCP-Token`
if `this.token` is truthy. -/
def getHeaders (st : ClientState) : List (List Char × List Char) :=
  (contentTypeKey, "application/json".toList)
    :: ((if truthyStr st.clientName then [(clientNameKey, st.clientName.getD [])] else [])
      ++ (if truthyStr st.token then [(tokenKey, st.token.getD [])] else []))

/-- Does a header list carry the given key? -/
def hasHeaderKey (hs : List (List Char × List Char)) (k : List Char) : Bool :=
  hs.any (fun kv => kv.1 = k)

/-- Value of the first header with the given key, if any. -/
def headerVal (hs : List (List Char × List Char)) (k : List Char) : Option (List Char) :=
  (hs.find? (fun kv => kv.1 = k)).map (fun kv => kv.2)

/-- Strip a literal prefix from a character list (the anchored literal part
`^resource:\/\/` of the URI regex). -/
def stripPrefixList : List Char → List Char → Option (List Char)
  | [], l => some l
  | _ :: _, [] => none
  | p :: ps, c :: cs => if c = p then stripPrefixList ps cs else none

/-- Split at the first `'/'`: `some (before, after)` when a slash occurs,
`none` otherwise.  Mirrors `([^\/]+)\/` of the regex: the first capture can
only end at the first slash. -/
def splitAtSlash : List Char → Option (List Char × List Char)
  | [] => none
  | c :: cs =>
    if c = '/' then some ([], cs)
    else (splitAtSlash cs).map (fun sp => (c :: sp.1, sp.2))

/-- JavaScript regex `.` (no `s` flag): any character except the line
terminators LF, CR, U+2028, U+2029. -/
def jsDot (c : Char) : Bool :=
  c.val.toNat ≠ 10 && c.val.toNat ≠ 13 && c.val.toNat ≠ 8232 && c.val.toNat ≠ 8233

def resourceScheme : List Char := "resource://".toList

/-- Model of `uri.match(/^resource:\/\/([^\/]+)\/(.+)$/)`: the server name
is the non-empty run of non-slash characters after the scheme, the path is
the non-empty remainder after the first slash, every path character being a
regex `.` (so no line terminators).  Returns the two captures. -/
def matchResourceUri (uri : List Char) : Option (List Char × List Char) :=
  match stripPrefixList resourceScheme uri with
  | none => none
  | some rest =>
    match splitAtSlash rest with
    | none => none
    | some (s, p) =>
      if s = [] then none
      else if p = [] then none
      else if p.all jsDot then some (s, p) else none

/-- The logical operations of `HttpMcpClient`, with their inputs. -/
inductive ClientOp where
  | listTools
  | callTool (name : List Char) (args : Json)
  | listResources
  | readResource (uri : List Char)
  | listPrompts
  | getPrompt (name : List Char) (args : Json)

/-- The TypeScript default parameter `args: any = {}` of `callTool` and
`getPrompt`. -/
def defaultArgs : Json := Json.obj []

/-- `response.json()`: the decoded body, or a rejection when the body is
not JSON (the model message stands in for node-fetch's). -/
def jsonOf (r : HttpResponse) : Except (List Char) Json :=
  match r.bodyJson with
  | some j => Except.ok j
  | none => Except.error "invalid json response body".toList

/-- Run one client operation against a network `net`, returning the list of
HTTP requests issued and the result (`Except.error` models a thrown
`Error`).  A direct transcription of the six `HttpMcpClient` methods. -/
def runOp (st : ClientState) (op : ClientOp) (net : HttpRequest → HttpResponse) :
    List HttpRequest × Except (List Char) Json :=
  match op with
  | ClientOp.listTools =>
    let req : HttpRequest :=
      { method := "GET".toList, url := st.baseUrl ++ "/api/tools".toList
        headers := getHeaders st, body := none }
    let r := net req
    ([req], if respOk r then jsonOf r
      else Except.error ("Failed to list tools: ".toList ++ r.statusText))
  | ClientOp.callTool name args =>
    let req : HttpRequest :=
      { method := "POST".toList
        url := st.baseUrl ++ ("/api/tool-by-name/".toList ++ encodeURIComponent name)
        headers := getHeaders st, body := some (jsonStringify args) }
    let r := net req
    ([req], if respOk r then jsonOf r
      else Except.error ("Failed to call tool ".toList ++ (name ++ (": ".toList ++ r.statusText))))
  | ClientOp.listResources =>
    let req : HttpRequest :=
      { method := "GET".toList, url := st.baseUrl ++ "/api/resources".toList
        headers := getHeaders st, body := none }
    let r := net req
    ([req], if respOk r then jsonOf r
      else Except.error ("Failed to list resources: ".toList ++ r.statusText))
  | ClientOp.readResource uri =>
    match matchResourceUri uri with
    | none => ([], Except.error ("Invalid resource URI: ".toList ++ (uri ++ ".".toList)))
    | some (serverName, path) =>
      let req : HttpRequest :=
        { method := "GET".toList
          url := st.baseUrl ++ ("/api/resource?serverName=".toList
            ++ (encodeURIComponent serverName ++ ("&path=".toList ++ encodeURIComponent path)))
          headers := getHeaders st, body := none }
      let r := net req
      ([req], if respOk r then jsonOf r
        else Except.error ("Failed to read resource ".toList ++ (uri ++ (": ".toList ++ r.statusText))))
  | ClientOp.listPrompts =>
    let req : HttpRequest :=
      { method := "GET".toList, url := st.baseUrl ++ "/api/prompts".toList
        headers := getHeaders st, body := none }
    let r := net req
    ([req], if respOk r then jsonOf r
      else Except.error ("Failed to list prompts: ".toList ++ r.statusText))
  | ClientOp.getPrompt name args =>
    let req : HttpRequest :=
      { method := "POST".toList
        url := st.baseUrl ++ ("/api/prompt/".toList ++ encodeURIComponent name)
        headers := getHeaders st, body := some (jsonStringify args) }
    let r := net req
    ([req], if respOk r then jsonOf r
      else Except.error ("Failed to get prompt ".toList ++ (name ++ (": ".toList ++ r.statusText))))

/-- JavaScript falsiness of a JSON value (`x || y` picks `y` when `x` is
null, `false`, `0` or the empty string). -/
def jsFalsy : Json → Bool
  | Json.null => true
  | Json.bool b => !b
  | Json.num n => n = 0
  | Json.str s => s.isEmpty
  | Json.arr _ => false
  | Json.obj _ => false

/-- The JavaScript `v || d` pattern on a possibly absent JSON value
(`request.params.arguments || {}` and friends). -/
def jsOrElse (v : Option Json) (d : Json) : Json :=
  match v with
  | none => d
  | some j => if jsFalsy j then d else j

/-- Property lookup on a JSON value, `undefined` (`none`) when the key is
absent or the value is not an object. -/
def jsGet : Json → List Char → Option Json
  | Json.obj fs, k => fs.lookup k
  | _, _ => none

/-- The `McpError` shape thrown by the handlers: a JSON-RPC error code and
a message. -/
structure McpErr where
  code : Int
  message : List Char
deriving DecidableEq

/-- `ErrorCode.InternalError` of the MCP SDK (JSON-RPC internal error). -/
def internalErrorCode : Int := -32603

def SERVER_NAME : List Char := "MCP Router".toList

def VERSION : List Char := "0.0.2".toList

/-- Wrap a client-side thrown error as
`McpError(InternalError, prefix + error.message)`; pass success through. -/
def wrapInternal (pre : List Char) : Except (List Char) Json → Except McpErr Json
  | Except.ok j => Except.ok j
  | Except.error m => Except.error { code := internalErrorCode, message := pre ++ m }

/-- `clientInfo` of an Initialize request: the protocol requires a `name`. -/
structure ClientInfo where
  name : List Char

/-- Parameters of an Initialize request. -/
structure InitializeParams where
  protocolVersion : List Char
  clientInfo : Option ClientInfo

/-- The Initialize response the handler builds: echoed protocol version, a
capabilities object whose only key is `tools` (`capsTools = true` models
the presence of that key), and the fixed server info. -/
structure InitializeResult where
  protocolVersion : List Char
  capsTools : Bool
  serverInfoName : List Char
  serverInfoVersion : List Char
deriving DecidableEq

/-- The Initialize handler: forwards `clientInfo.name` to `setClientInfo`
when present and truthy (non-empty), then returns the fixed-shape response.
The handler body cannot throw, so the `catch` branch is unreachable and the
result is returned directly. -/
def initializeHandler (st : ClientState) (p : InitializeParams) :
    ClientState × InitializeResult :=
  let st2 :=
    match p.clientInfo with
    | some ci => if !ci.name.isEmpty then setClientInfo st ci.name else st
    | none => st
  (st2,
   { protocolVersion := p.protocolVersion, capsTools := true
     serverInfoName := SERVER_NAME, serverInfoVersion := VERSION })

/-- Parameters of a CallTool request: `name` and optional `arguments`. -/
structure CallToolParams where
  name : List Char
  arguments : Option Json

/-- The CallTool handler: delegates to
`callTool(request.params.name, request.params.arguments || \x7b\x7d)`,
wrapping a thrown error as
`InternalError 'Error calling tool <name>: <message>'`. -/
def callToolHandler (st : ClientState) (p : CallToolParams)
    (net : HttpRequest → HttpResponse) : List HttpRequest × Except McpErr Json :=
  let r := runOp st (ClientOp.callTool p.name (jsOrElse p.arguments (Json.obj []))) net
  (r.1, wrapInternal ("Error calling tool ".toList ++ (p.name ++ ": ".toList)) r.2)

/-- Parameters of a GetPrompt request.  The protocol schema defines `name`
and `arguments`; the schema is validated with passthrough, so an extra
`args` key a sender might include is preserved and readable.  The handler
reads `request.params.args`, which the protocol never populates. -/
structure GetPromptParams where
  name : List Char
  arguments : Option Json
  args : Option Json

/-- The GetPrompt handler: delegates to
`getPrompt(request.params.name, request.params.args || \x7b\x7d)`, wrapping
a thrown error as `InternalError 'Error getting prompt <name>: <message>'`. -/
def getPromptHandler (st : ClientState) (p : GetPromptParams)
    (net : HttpRequest → HttpResponse) : List HttpRequest × Except McpErr Json :=
  let r := runOp st (ClientOp.getPrompt p.name (jsOrElse p.args (Json.obj []))) net
  (r.1, wrapInternal ("Error getting prompt ".toList ++ (p.name ++ ": ".toList)) r.2)

/-- The ListTools handler: returns the `tools` field of the remote result
defaulting to the empty array, failures wrapped as
`InternalError 'Error listing tools: <message>'`. -/
def listToolsHandler (st : ClientState) (net : HttpRequest → HttpResponse) :
    List HttpRequest × Except McpErr Json :=
  let r := runOp st ClientOp.listTools net
  (r.1,
   match r.2 with
   | Except.ok j => Except.ok (Json.obj [("tools".toList, jsOrElse (jsGet j "tools".toList) (Json.arr []))])
   | Except.error m => Except.error { code := internalErrorCode, message := "Error listing tools: ".toList ++ m })

/-- The ListResources handler, analogous to ListTools. -/
def listResourcesHandler (st : ClientState) (net : HttpRequest → HttpResponse) :
    List HttpRequest × Except McpErr Json :=
  let r := runOp st ClientOp.listResources net
  (r.1,
   match r.2 with
   | Except.ok j => Except.ok (Json.obj [("resources".toList, jsOrElse (jsGet j "resources".toList) (Json.arr []))])
   | Except.error m => Except.error { code := internalErrorCode, message := "Error listing resources: ".toList ++ m })

/-- The ListPrompts handler, analogous to ListTools. -/
def listPromptsHandler (st : ClientState) (net : HttpRequest → HttpResponse) :
    List HttpRequest × Except McpErr Json :=
  let r := runOp st ClientOp.listPrompts net
  (r.1,
   match r.2 with
   | Except.ok j => Except.ok (Json.obj [("prompts".toList, jsOrElse (jsGet j "prompts".toList) (Json.arr []))])
   | Except.error m => Except.error { code := internalErrorCode, message := "Error listing prompts: ".toList ++ m })

/-- The ReadResource handler: delegates to `readResource(uri)`, wrapping a
thrown error (invalid URI or remote failure alike) as
`InternalError 'Error reading resource <uri>: <message>'`. -/
def readResourceHandler (st : ClientState) (uri : List Char)
    (net : HttpRequest → HttpResponse) : List HttpRequest × Except McpErr Json :=
  let r := runOp st (ClientOp.readResource uri) net
  (r.1, wrapInternal ("Error reading resource ".toList ++ (uri ++ ": ".toList)) r.2)

/-- State the bridge server itself holds for the probe: the base URL and
the token from the connection options. -/
structure BridgeState where
  baseUrl : List Char
  token : Option (List Char)

/-- The 5000 ms timeout armed around the probe fetch
(`setTimeout` arming `controller.abort` after 5000 ms). -/
def probeTimeoutMs : Nat := 5000

/-- The probe request `testConnection` issues: GET `/api/test` with a
locally built header object containing only `X-MCP-Token` when the token is
truthy (note: no `Content-Type`, no client-name header). -/
def probeRequest (b : BridgeState) : HttpRequest :=
  { method := "GET".toList
    url := b.baseUrl ++ "/api/test".toList
    headers := if truthyStr b.token then [(tokenKey, b.token.getD [])] else []
    body := none }

/-- What the probe fetch can come back with: connection refused
(`ECONNREFUSED`), the 5-second abort (`AbortError`), some other fetch
failure, or an HTTP response. -/
inductive ProbeOutcome where
  | connRefused
  | abortTimeout
  | otherFailure (msg : List Char)
  | response (r : HttpResponse)

def refusedMsg (baseUrl : List Char) : List Char :=
  "Connection refused at ".toList
    ++ (baseUrl ++ ". Make sure the Electron application is running and the HTTP server is enabled.".toList)

def timeoutMsg (baseUrl : List Char) : List Char :=
  "Connection timed out after 5 seconds. The server at ".toList
    ++ (baseUrl ++ " is not responding.".toList)

def statusMsg (status : Nat) (statusText : List Char) : List Char :=
  "Server responded with status: ".toList
    ++ ((Nat.repr status).toList
      ++ (if statusText.isEmpty then [] else " (".toList ++ (statusText ++ ")".toList)))

def parseFailMsg : List Char :=
  "Failed to parse server response as JSON. Server may not be fully initialized.".toList

/-- `HttpMcpBridgeServer.testConnection`: one probe fetch, then the four
failure classifications of the source.  The outer `catch` only logs and
rethrows, so the error message is unchanged. -/
def testConnection (b : BridgeState) (out : ProbeOutcome) :
    List HttpRequest × Except (List Char) Unit :=
  ([probeRequest b],
   match out with
   | ProbeOutcome.connRefused => Except.error (refusedMsg b.baseUrl)
   | ProbeOutcome.abortTimeout => Except.error (timeoutMsg b.baseUrl)
   | ProbeOutcome.otherFailure m =>
       Except.error ("Failed to connect to ".toList ++ (b.baseUrl ++ (": ".toList ++ m)))
   | ProbeOutcome.response r =>
     if respOk r then
       match r.bodyJson with
       | some _ => Except.ok ()
       | none => Except.error parseFailMsg
     else Except.error (statusMsg r.status r.statusText))

/-- Result of `start()`: either the stdio transport was connected and the
bridge is serving, or the process exited with the given status after
logging. -/
inductive StartOutcome where
  | serving
  | exited (code : Nat) (log : List Char)
deriving DecidableEq

/-- `HttpMcpBridgeServer.start`: runs the probe once; on any probe failure
logs `Failed to start MCP Bridge Server: <message>` and exits with status
1; otherwise connects the transport. -/
def start (b : BridgeState) (out : ProbeOutcome) : List HttpRequest × StartOutcome :=
  let t := testConnection b out
  (t.1,
   match t.2 with
   | Except.ok _ => StartOutcome.serving
   | Except.error m =>
       StartOutcome.exited 1 ("Failed to start MCP Bridge Server: ".toList ++ m))

/-- An event in the life of the client: either the bridge sets the identity
(`setClientInfo`) or one operation runs. -/
inductive ClientEvent where
  | setInfo (name : List Char)
  | invoke (op : ClientOp)

/-- The client state after a sequence of events: only `setInfo` mutates it
(no operation touches `clientName`). -/
def foldState (st : ClientState) : List ClientEvent → ClientState
  | [] => st
  | ClientEvent.setInfo n :: es => foldState (setClientInfo st n) es
  | ClientEvent.invoke _ :: es => foldState st es

/-- All HTTP requests a sequence of events issues, in order. -/
def runEvents (st : ClientState) (net : HttpRequest → HttpResponse) :
    List ClientEvent → List HttpRequest
  | [] => []
  | ClientEvent.setInfo n :: es => runEvents (setClientInfo st n) net es
  | ClientEvent.invoke op :: es => (runOp st op net).1 ++ runEvents st net es

/-- The `needle` occurs contiguously inside `hay`. -/
def containsSeg (hay needle : List Char) : Prop :=
  ∃ a b, hay = a ++ (needle ++ b)

/-- Fixture: a client as constructed for `localhost:3282` with no token and
identity unset. -/
def st0 : ClientState :=
  { baseUrl := "http://localhost:3282".toList, clientName := none, token := none }

/-- Fixture: a remote that always answers 200 with an empty JSON object. -/
def net0 : HttpRequest → HttpResponse :=
  fun _ => { status := 200, statusText := "OK".toList, bodyJson := some (Json.obj []) }

/-- Fixture: a remote that always answers 500 with a non-JSON body. -/
def net500 : HttpRequest → HttpResponse :=
  fun _ => { status := 500, statusText := "Internal Server Error".toList, bodyJson := none }

/-- Fixture: the bridge state for `localhost:3282` with no token. -/
def b0 : BridgeState := { baseUrl := "http://localhost:3282".toList, token := none }

theorem stripPrefixList_append (ps l : List Char) :
    stripPrefixList ps (ps ++ l) = some l := by
  induction ps with
  | nil => rfl
  | cons p ps ih => simp [stripPrefixList, ih]

theorem stripPrefixList_sound (ps : List Char) :
    ∀ u r : List Char, stripPrefixList ps u = some r → u = ps ++ r := by
  induction ps with
  | nil => intro u r h; simp [stripPrefixList] at h; simp [h]
  | cons p ps ih =>
    intro u r h
    cases u with
    | nil => simp [stripPrefixList] at h
    | cons c cs =>
      by_cases hc : c = p
      · subst hc
        simp [stripPrefixList] at h
        simp [ih cs r h]
      · simp [stripPrefixList, hc] at h

theorem splitAtSlash_append (s p : List Char) (h : '/' ∉ s) :
    splitAtSlash (s ++ '/' :: p) = some (s, p) := by
  induction s with
  | nil => simp [splitAtSlash]
  | cons c cs ih =>
    have hc : c ≠ '/' := fun he => h (he ▸ List.mem_cons_self c cs)
    have hcs : '/' ∉ cs := fun hm => h (List.mem_cons_of_mem c hm)
    simp [splitAtSlash, hc, ih hcs]

theorem splitAtSlash_none (l : List Char) (h : '/' ∉ l) : splitAtSlash l = none := by
  induction l with
  | nil => rfl
  | cons c cs ih =>
    have hc : c ≠ '/' := fun he => h (he ▸ List.mem_cons_self c cs)
    have hcs : '/' ∉ cs := fun hm => h (List.mem_cons_of_mem c hm)
    simp [splitAtSlash, hc, ih hcs]

theorem splitAtSlash_sound (l : List Char) :
    ∀ s p : List Char, splitAtSlash l = some (s, p) → l = s ++ '/' :: p ∧ '/' ∉ s := by
  induction l with
  | nil => intro s p h; simp [splitAtSlash] at h
  | cons c cs ih =>
    intro s p h
    by_cases hc : c = '/'
    · subst hc
      simp [splitAtSlash] at h
      obtain ⟨rfl, rfl⟩ := h
      exact ⟨rfl, List.not_mem_nil '/'⟩
    · cases hsp : splitAtSlash cs with
      | none => simp [splitAtSlash, hc, hsp] at h
      | some sp' =>
        obtain ⟨s', p'⟩ := sp'
        simp [splitAtSlash, hc, hsp] at h
        obtain ⟨hs, hp2⟩ := h
        obtain ⟨hcs2, hnp⟩ := ih s' p' hsp
        subst hs
        subst hp2
        constructor
        · simp [hcs2]
        · intro hm
          rcases List.mem_cons.mp hm with he | hm'
          · exact hc he.symm
          · exact hnp hm'

theorem matchResourceUri_eq (s p : List Char) (hs : s ≠ []) (hsl : '/' ∉ s)
    (hp : p ≠ []) (hd : p.all jsDot = true) :
    matchResourceUri (resourceScheme ++ (s ++ '/' :: p)) = some (s, p) := by
  unfold matchResourceUri
  simp [stripPrefixList_append, splitAtSlash_append s p hsl, hs, hp, hd]

theorem matchResourceUri_sound (uri s p : List Char)
    (h : matchResourceUri uri = some (s, p)) :
    uri = resourceScheme ++ (s ++ '/' :: p) ∧ s ≠ [] ∧ '/' ∉ s ∧ p ≠ [] ∧ p.all jsDot = true := by
  unfold matchResourceUri at h
  cases hst : stripPrefixList resourceScheme uri with
  | none => simp [hst] at h
  | some rest =>
    simp only [hst] at h
    cases hsp : splitAtSlash rest with
    | none => simp [hsp] at h
    | some sp =>
      obtain ⟨s', p'⟩ := sp
      simp only [hsp] at h
      by_cases h1 : s' = []
      · simp [h1] at h
      by_cases h2 : p' = []
      · simp [h1, h2] at h
      by_cases h3 : p'.all jsDot
      · simp [h1, h2, h3] at h
        obtain ⟨rfl, rfl⟩ := h
        obtain ⟨hrest, hnsl⟩ := splitAtSlash_sound rest s' p' hsp
        exact ⟨by rw [stripPrefixList_sound resourceScheme uri rest hst, hrest], h1, hnsl, h2, h3⟩
      · simp [h1, h2, h3] at h

theorem respOk_false_of_ge {r : HttpResponse} (h : 400 ≤ r.status) : respOk r = false := by
  unfold respOk
  simp
  omega

theorem wrapInternal_err (pre m : List Char) :
    wrapInternal pre (Except.error m) =
      Except.error { code := internalErrorCode, message := pre ++ m } := rfl

theorem ctk_ne_cnk : contentTypeKey ≠ clientNameKey := by decide

theorem tk_ne_cnk : tokenKey ≠ clientNameKey := by decide

theorem ctk_ne_tk : contentTypeKey ≠ tokenKey := by decide

theorem cnk_ne_tk : clientNameKey ≠ tokenKey := by decide

theorem tk_ne_ctk : tokenKey ≠ contentTypeKey := by decide

theorem hasHeaderKey_getHeaders_name (st : ClientState) :
    hasHeaderKey (getHeaders st) clientNameKey = truthyStr st.clientName := by
  cases hc : truthyStr st.clientName <;> cases ht : truthyStr st.token <;>
    simp [hasHeaderKey, getHeaders, hc, ht, ctk_ne_cnk, tk_ne_cnk]

theorem hasHeaderKey_getHeaders_token (st : ClientState) :
    hasHeaderKey (getHeaders st) tokenKey = truthyStr st.token := by
  cases hc : truthyStr st.clientName <;> cases ht : truthyStr st.token <;>
    simp [hasHeaderKey, getHeaders, hc, ht, ctk_ne_tk, cnk_ne_tk]

theorem headerVal_getHeaders_ct (st : ClientState) :
    headerVal (getHeaders st) contentTypeKey = some "application/json".toList := by
  simp [headerVal, getHeaders, List.find?]

theorem headerVal_getHeaders_name {st : ClientState} {n : List Char}
    (h : st.clientName = some n) (hn : n ≠ []) :
    headerVal (getHeaders st) clientNameKey = some n := by
  have htr : truthyStr (some n) = true := by simp [truthyStr, List.isEmpty_iff, hn]
  cases ht : truthyStr st.token <;>
    simp [headerVal, getHeaders, htr, ht, h, truthyStr, List.find?, ctk_ne_cnk, List.isEmpty_iff, hn]

theorem runOp_headers (st : ClientState) (op : ClientOp) (net : HttpRequest → HttpResponse)
    (req : HttpRequest) (h : req ∈ (runOp st op net).1) : req.headers = getHeaders st := by
  cases op with
  | listTools => simp [runOp] at h; subst h; rfl
  | callTool name args => simp [runOp] at h; subst h; rfl
  | listResources => simp [runOp] at h; subst h; rfl
  | readResource uri =>
    cases hm : matchResourceUri uri with
    | none => simp [runOp, hm] at h
    | some sp =>
      obtain ⟨s, p⟩ := sp
      simp [runOp, hm] at h
      subst h
      rfl
  | listPrompts => simp [runOp] at h; subst h; rfl
  | getPrompt name args => simp [runOp] at h; subst h; rfl

theorem char_val_lt (c : Char) : c.val.toNat < 1114112 := by
  have h : c.val.toNat.isValidChar := c.valid
  rcases h with h | ⟨h1, h2⟩ <;> omega

theorem utf8Bytes_lt {n : Nat} (hn : n < 1114112) {b : Nat} (hb : b ∈ utf8Bytes n) :
    b < 256 := by
  by_cases h1 : n < 128
  · simp [utf8Bytes, h1] at hb
    omega
  · by_cases h2 : n < 2048
    · simp [utf8Bytes, h1, h2] at hb
      rcases hb with rfl | rfl <;> omega
    · by_cases h3 : n < 65536
      · simp [utf8Bytes, h1, h2, h3] at hb
        rcases hb with rfl | rfl | rfl <;> omega
      · simp [utf8Bytes, h1, h2, h3] at hb
        rcases hb with rfl | rfl | rfl | rfl <;> omega

set_option maxRecDepth 4000 in
theorem pct_no_slash : ∀ b : Fin 256, '/' ∉ pctByte b.val := by decide

theorem uriUnreserved_slash : uriUnreserved '/' = false := by decide

theorem encodeURIComponent_no_slash (s : List Char) : '/' ∉ encodeURIComponent s := by
  intro hmem
  unfold encodeURIComponent at hmem
  rw [List.mem_flatten] at hmem
  obtain ⟨l, hl, hcl⟩ := hmem
  rw [List.mem_map] at hl
  obtain ⟨c, _, rfl⟩ := hl
  by_cases hu : uriUnreserved c
  · simp [hu] at hcl
    rw [← hcl] at hu
    rw [uriUnreserved_slash] at hu
    exact Bool.false_ne_true hu
  · simp [hu] at hcl
    obtain ⟨b, hb, hcpb⟩ := hcl
    have hb256 : b < 256 := utf8Bytes_lt (char_val_lt c) hb
    exact pct_no_slash ⟨b, hb256⟩ hcpb

theorem ne_of_getQ {a b : List Char} (i : Nat) (h : a[i]? ≠ b[i]?) : a ≠ b :=
  fun he => h (by rw [he])

theorem refusedMsg_get_zero (u : List Char) : (refusedMsg u)[0]? = some 'C' := by
  unfold refusedMsg
  rw [List.getElem?_append_left (by decide)]
  decide

theorem refusedMsg_get_eleven (u : List Char) : (refusedMsg u)[11]? = some 'r' := by
  unfold refusedMsg
  rw [List.getElem?_append_left (by decide)]
  decide

theorem timeoutMsg_get_zero (u : List Char) : (timeoutMsg u)[0]? = some 'C' := by
  unfold timeoutMsg
  rw [List.getElem?_append_left (by decide)]
  decide

theorem timeoutMsg_get_eleven (u : List Char) : (timeoutMsg u)[11]? = some 't' := by
  unfold timeoutMsg
  rw [List.getElem?_append_left (by decide)]
  decide

theorem statusMsg_get_zero (s : Nat) (t : List Char) : (statusMsg s t)[0]? = some 'S' := by
  unfold statusMsg
  rw [List.getElem?_append_left (by decide)]
  decide

theorem parseFailMsg_get_zero : parseFailMsg[0]? = some 'F' := by decide

theorem runEvents_absent (net : HttpRequest → HttpResponse) :
    ∀ (es : List ClientEvent) (st : ClientState), truthyStr st.clientName = false →
      (∀ n, ClientEvent.setInfo n ∈ es → n = []) →
      ∀ req ∈ runEvents st net es, hasHeaderKey req.headers clientNameKey = false := by
  intro es
  induction es with
  | nil => intro st _ _ req hreq; simp [runEvents] at hreq
  | cons e es ih =>
    intro st hst hset req hreq
    cases e with
    | setInfo n =>
      have hn : n = [] := hset n (List.mem_cons_self _ _)
      subst hn
      simp only [runEvents] at hreq
      exact ih (setClientInfo st []) (by simp [setClientInfo, truthyStr])
        (fun m hm => hset m (List.mem_cons_of_mem _ hm)) req hreq
    | invoke op =>
      simp only [runEvents] at hreq
      rcases List.mem_append.mp hreq with hin | hin
      · rw [runOp_headers st op net req hin, hasHeaderKey_getHeaders_name, hst]
      · exact ih st hst (fun m hm => hset m (List.mem_cons_of_mem _ hm)) req hin

theorem runEvents_present (net : HttpRequest → HttpResponse) (n : List Char) (hn : n ≠ []) :
    ∀ (es : List ClientEvent) (st : ClientState),
      (∀ m, ClientEvent.setInfo m ∈ es → m = n) →
      ∀ req ∈ runEvents (setClientInfo st n) net es,
        headerVal req.headers clientNameKey = some n := by
  intro es
  induction es with
  | nil => intro st _ req hreq; simp [runEvents] at hreq
  | cons e es ih =>
    intro st hset req hreq
    cases e with
    | setInfo m =>
      have hm : m = n := hset m (List.mem_cons_self _ _)
      subst hm
      simp only [runEvents] at hreq
      exact ih (setClientInfo st m) (fun k hk => hset k (List.mem_cons_of_mem _ hk)) req hreq
    | invoke op =>
      simp only [runEvents] at hreq
      rcases List.mem_append.mp hreq with hin | hin
      · rw [runOp_headers _ op net req hin]
        exact headerVal_getHeaders_name (by simp [setClientInfo]) hn
      · exact ih st (fun k hk => hset k (List.mem_cons_of_mem _ hk)) req hin

theorem runEvents_append (net : HttpRequest → HttpResponse) :
    ∀ (pre es : List ClientEvent) (st : ClientState),
      runEvents st net (pre ++ es) = runEvents st net pre ++ runEvents (foldState st pre) net es := by
  intro pre
  induction pre with
  | nil => intro es st; simp [runEvents, foldState]
  | cons e pre ih =>
    intro es st
    cases e with
    | setInfo m =>
      simp only [List.cons_append, runEvents, foldState]
      exact ih es (setClientInfo st m)
    | invoke op =>
      simp only [List.cons_append, runEvents, foldState, List.append_assoc]
      exact congrArg _ (ih es st)

/-- C1 counterexample: the URI `resource://s/a\nb` is of the claimed shape
`resource://<serverName>/<path>` with a non-empty, slash-free server name
and a non-empty path, yet `readResource` issues no network request at all
(the regex `.` does not match the newline in the path), refuting the
claim's "exactly one GET" for this URI. -/
theorem C1_counterexample :
    ("resource://s/a\nb".toList = resourceScheme ++ (['s'] ++ '/' :: "a\nb".toList)
      ∧ (['s'] : List Char) ≠ [] ∧ '/' ∉ (['s'] : List Char) ∧ "a\nb".toList ≠ [])
    ∧ (runOp st0 (ClientOp.readResource "resource://s/a\nb".toList) net0).1 = [] := by
  exact ⟨by decide, rfl⟩

/-- C1 (amended): a URI of the form `resource://<serverName>/<path>` with
`serverName` non-empty and slash-free and `path` non-empty and free of
line terminators makes `readResource` issue exactly one GET to
`/api/resource` with `serverName` and `path` percent-encoded via
`encodeURIComponent` as query parameters; any URI admitting no such
decomposition fails with the invalid-URI error and issues no request. -/
theorem C1_read_resource_requests :
    (∀ (st : ClientState) (net : HttpRequest → HttpResponse) (s p : List Char),
      s ≠ [] → '/' ∉ s → p ≠ [] → p.all jsDot = true →
      (runOp st (ClientOp.readResource (resourceScheme ++ (s ++ '/' :: p))) net).1 =
        [{ method := "GET".toList
           url := st.baseUrl ++ ("/api/resource?serverName=".toList
             ++ (encodeURIComponent s ++ ("&path=".toList ++ encodeURIComponent p)))
           headers := getHeaders st, body := none }])
    ∧ (∀ (st : ClientState) (net : HttpRequest → HttpResponse) (uri : List Char),
      (¬ ∃ s p : List Char, uri = resourceScheme ++ (s ++ '/' :: p)
          ∧ s ≠ [] ∧ '/' ∉ s ∧ p ≠ [] ∧ p.all jsDot = true) →
      runOp st (ClientOp.readResource uri) net =
        ([], Except.error ("Invalid resource URI: ".toList ++ (uri ++ ".".toList)))) := by
  constructor
  · intro st net s p hs hsl hp hd
    simp [runOp, matchResourceUri_eq s p hs hsl hp hd]
  · intro st net uri hne
    cases hm : matchResourceUri uri with
    | none => simp [runOp, hm]
    | some sp =>
      obtain ⟨s, p⟩ := sp
      obtain ⟨h1, h2, h3, h4, h5⟩ := matchResourceUri_sound uri s p hm
      exact absurd ⟨s, p, h1, h2, h3, h4, h5⟩ hne

/-- C1 witness: on `resource://srv/p a` exactly one GET with encoded query
parameters is issued; on `bogus`, which admits no decomposition, the call
fails with the invalid-URI error and no request. -/
theorem C1_read_resource_requests_witness :
    (runOp st0 (ClientOp.readResource "resource://srv/p a".toList) net0).1 =
      [{ method := "GET".toList
         url := st0.baseUrl ++ ("/api/resource?serverName=".toList
           ++ (encodeURIComponent "srv".toList ++ ("&path=".toList ++ encodeURIComponent "p a".toList)))
         headers := getHeaders st0, body := none }]
    ∧ runOp st0 (ClientOp.readResource "bogus".toList) net0 =
      ([], Except.error ("Invalid resource URI: ".toList ++ ("bogus".toList ++ ".".toList))) := by
  constructor
  · have h := C1_read_resource_requests.1 st0 net0 "srv".toList "p a".toList
      (by decide) (by decide) (by decide) (by decide)
    rw [show "resource://srv/p a".toList
      = resourceScheme ++ ("srv".toList ++ '/' :: "p a".toList) from by decide]
    exact h
  · refine C1_read_resource_requests.2 st0 net0 "bogus".toList ?_
    rintro ⟨s, p, h1, h2, h3, h4, h5⟩
    have hm : matchResourceUri "bogus".toList = some (s, p) := by
      rw [h1]
      exact matchResourceUri_eq s p h2 h3 h4 h5
    have hnone : matchResourceUri "bogus".toList = none := by decide
    rw [hnone] at hm
    exact Option.noConfusion hm

/-- C9: a URI `resource://<serverName>` with no slash after the server
name, and a URI `resource://<serverName>/` with an empty path, both fail
with the invalid-URI error without issuing any network request: the
accepted pattern requires a non-empty server name and a non-empty path. -/
theorem C9_no_path_rejected (st : ClientState) (net : HttpRequest → HttpResponse)
    (s : List Char) (hs : s ≠ []) (hsl : '/' ∉ s) :
    runOp st (ClientOp.readResource (resourceScheme ++ s)) net =
      ([], Except.error ("Invalid resource URI: ".toList ++ ((resourceScheme ++ s) ++ ".".toList)))
    ∧ runOp st (ClientOp.readResource (resourceScheme ++ (s ++ ['/']))) net =
      ([], Except.error ("Invalid resource URI: ".toList ++ ((resourceScheme ++ (s ++ ['/'])) ++ ".".toList))) := by
  have h1 : matchResourceUri (resourceScheme ++ s) = none := by
    unfold matchResourceUri
    simp [stripPrefixList_append, splitAtSlash_none s hsl]
  have h2 : matchResourceUri (resourceScheme ++ (s ++ ['/'])) = none := by
    unfold matchResourceUri
    simp [stripPrefixList_append, splitAtSlash_append s [] hsl, hs]
  exact ⟨by simp [runOp, h1], by simp [runOp, h2]⟩

/-- C9 witness: `resource://srv` and `resource://srv/` are both rejected
with no request issued. -/
theorem C9_no_path_rejected_witness :
    runOp st0 (ClientOp.readResource (resourceScheme ++ "srv".toList)) net0 =
      ([], Except.error ("Invalid resource URI: ".toList ++ ((resourceScheme ++ "srv".toList) ++ ".".toList)))
    ∧ runOp st0 (ClientOp.readResource (resourceScheme ++ ("srv".toList ++ ['/']))) net0 =
      ([], Except.error ("Invalid resource URI: ".toList ++ ((resourceScheme ++ ("srv".toList ++ ['/'])) ++ ".".toList))) :=
  C9_no_path_rejected st0 net0 "srv".toList (by decide) (by decide)

/-- An operation's behaviour depends on the client state only through the
base URL and the computed headers. -/
theorem runOp_congr {st1 st2 : ClientState} (hb : st1.baseUrl = st2.baseUrl)
    (hh : getHeaders st1 = getHeaders st2) (op : ClientOp)
    (net : HttpRequest → HttpResponse) : runOp st1 op net = runOp st2 op net := by
  cases op with
  | readResource uri =>
    cases hm : matchResourceUri uri with
    | none => simp only [runOp, hm]
    | some sp =>
      obtain ⟨s, p⟩ := sp
      simp only [runOp, hm, hb, hh]
  | listTools => simp only [runOp, hb, hh]
  | callTool name args => simp only [runOp, hb, hh]
  | listResources => simp only [runOp, hb, hh]
  | listPrompts => simp only [runOp, hb, hh]
  | getPrompt name args => simp only [runOp, hb, hh]

/-- C3: the identity header across operation sequences.  First conjunct:
from any state with a falsy stored name (in particular the fresh client,
where it is null), as long as `setClientInfo` is only ever called with the
empty name, no issued request carries `X-MCP-Client-Name`.  Second
conjunct: after `setClientInfo` with a non-empty `n` (and no later call
with a different name), every request of every subsequent operation
carries the header with exactly the value `n`.  Third conjunct: traces
decompose, so the two statements compose over any full event sequence. -/
theorem C3_identity_header :
    (∀ (st : ClientState) (net : HttpRequest → HttpResponse) (es : List ClientEvent),
      truthyStr st.clientName = false →
      (∀ n, ClientEvent.setInfo n ∈ es → n = []) →
      ∀ req ∈ runEvents st net es, hasHeaderKey req.headers clientNameKey = false)
    ∧ (∀ (st : ClientState) (net : HttpRequest → HttpResponse) (es : List ClientEvent)
        (n : List Char), n ≠ [] →
      (∀ m, ClientEvent.setInfo m ∈ es → m = n) →
      ∀ req ∈ runEvents (setClientInfo st n) net es,
        headerVal req.headers clientNameKey = some n)
    ∧ (∀ (st : ClientState) (net : HttpRequest → HttpResponse) (pre es : List ClientEvent),
      runEvents st net (pre ++ es) =
        runEvents st net pre ++ runEvents (foldState st pre) net es) :=
  ⟨fun st net es hst hset => runEvents_absent net es st hst hset,
   fun st net es n hn hset => runEvents_present net n hn es st hset,
   fun st net pre es => runEvents_append net pre es st⟩

/-- C3 witness: a fresh client lists tools (no identity header on that
request), then `setClientInfo "alice"` is called and tools are listed
again: that request carries `X-MCP-Client-Name: alice`. -/
theorem C3_identity_header_witness :
    hasHeaderKey (HttpRequest.mk "GET".toList
        (st0.baseUrl ++ "/api/tools".toList) (getHeaders st0) none).headers
      clientNameKey = false
    ∧ headerVal (HttpRequest.mk "GET".toList
        (st0.baseUrl ++ "/api/tools".toList)
        (getHeaders (setClientInfo st0 "alice".toList)) none).headers
      clientNameKey = some "alice".toList := by
  constructor
  · refine C3_identity_header.1 st0 net0 [ClientEvent.invoke ClientOp.listTools]
      (by decide) ?_ _ ?_
    · intro n hn
      simp at hn
    · simp [runEvents, runOp]
  · refine C3_identity_header.2.1 st0 net0 [ClientEvent.invoke ClientOp.listTools]
      "alice".toList (by decide) ?_ _ ?_
    · intro m hm
      simp at hm
    · simp [runEvents, runOp, setClientInfo]

/-- C10: calling `setClientInfo` with the empty string stores a falsy
name, so every operation behaves exactly as with the identity never set
(first conjunct: the full behaviour, requests and result, coincides with
the null-name state), and the header key is attached exactly when the
stored name is truthy, that is, a non-empty string (second conjunct). -/
theorem C10_empty_name_header :
    (∀ (st : ClientState) (net : HttpRequest → HttpResponse) (op : ClientOp),
      runOp (setClientInfo st []) op net = runOp { st with clientName := none } op net)
    ∧ (∀ st : ClientState, hasHeaderKey (getHeaders st) clientNameKey = truthyStr st.clientName)
    ∧ truthyStr (some []) = false := by
  refine ⟨?_, hasHeaderKey_getHeaders_name, rfl⟩
  intro st net op
  exact runOp_congr (by simp [setClientInfo])
    (by simp [getHeaders, setClientInfo, truthyStr]) op net

/-- C4: `callTool` issues one POST to `/api/tool-by-name/<enc(name)>` and
`getPrompt` one POST to `/api/prompt/<enc(name)>`, the name travelling
unsplit through `encodeURIComponent`; the encoded name never contains a
slash, so it stays one path segment; the body is always the JSON
serialization of `args`, and the defaulted `args` serializes to the
two-character empty-object string (never an absent body). -/
theorem C4_name_encoding_and_body :
    (∀ (st : ClientState) (net : HttpRequest → HttpResponse) (name : List Char) (args : Json),
      (runOp st (ClientOp.callTool name args) net).1 =
        [{ method := "POST".toList
           url := st.baseUrl ++ ("/api/tool-by-name/".toList ++ encodeURIComponent name)
           headers := getHeaders st, body := some (jsonStringify args) }])
    ∧ (∀ (st : ClientState) (net : HttpRequest → HttpResponse) (name : List Char) (args : Json),
      (runOp st (ClientOp.getPrompt name args) net).1 =
        [{ method := "POST".toList
           url := st.baseUrl ++ ("/api/prompt/".toList ++ encodeURIComponent name)
           headers := getHeaders st, body := some (jsonStringify args) }])
    ∧ (∀ name : List Char, '/' ∉ encodeURIComponent name)
    ∧ jsonStringify defaultArgs = [Char.ofNat 123, Char.ofNat 125] := by
  refine ⟨?_, ?_, encodeURIComponent_no_slash, by decide⟩
  · intro st net name args
    simp [runOp]
  · intro st net name args
    simp [runOp]

/-- C5 counterexample: the liveness probe issued by `testConnection` (and
hence by `start()`) is an outbound HTTP call that does NOT carry
`Content-Type: application/json` — its header object is built locally and
holds at most the token header — refuting "every outbound HTTP call ...
attaches the header Content-Type: application/json". -/
theorem C5_counterexample :
    (testConnection b0 (ProbeOutcome.response
        { status := 200, statusText := "OK".toList, bodyJson := some (Json.obj []) })).1
      = [probeRequest b0]
    ∧ hasHeaderKey (probeRequest b0).headers contentTypeKey = false := ⟨rfl, by decide⟩

/-- C5 (amended): every request issued by the six client operations
carries `Content-Type: application/json`, the identity header exactly when
the stored client name is truthy and the token header exactly when the
configured token is truthy; the `start()`-time probe, by contrast, carries
no Content-Type and no identity header, only the token header when a token
is truthy. -/
theorem C5_headers_on_calls :
    (∀ (st : ClientState) (op : ClientOp) (net : HttpRequest → HttpResponse)
      (req : HttpRequest), req ∈ (runOp st op net).1 →
      headerVal req.headers contentTypeKey = some "application/json".toList
      ∧ hasHeaderKey req.headers clientNameKey = truthyStr st.clientName
      ∧ hasHeaderKey req.headers tokenKey = truthyStr st.token)
    ∧ (∀ (b : BridgeState) (out : ProbeOutcome) (req : HttpRequest),
      req ∈ (testConnection b out).1 →
      hasHeaderKey req.headers contentTypeKey = false
      ∧ hasHeaderKey req.headers tokenKey = truthyStr b.token
      ∧ hasHeaderKey req.headers clientNameKey = false) := by
  constructor
  · intro st op net req hreq
    rw [runOp_headers st op net req hreq]
    exact ⟨headerVal_getHeaders_ct st, hasHeaderKey_getHeaders_name st,
      hasHeaderKey_getHeaders_token st⟩
  · intro b out req hreq
    have hr : req = probeRequest b := by
      simpa [testConnection] using hreq
    subst hr
    cases ht : truthyStr b.token <;>
      simp [probeRequest, hasHeaderKey, ht, tk_ne_ctk, tk_ne_cnk]

/-- C5 witness: a client with a token and identity set sends all three
headers on `listTools`; the probe request of a tokenless bridge carries no
header at all. -/
theorem C5_headers_on_calls_witness :
    (headerVal (getHeaders (ClientState.mk "u".toList (some "alice".toList) (some "tok".toList)))
        contentTypeKey = some "application/json".toList
      ∧ hasHeaderKey (getHeaders (ClientState.mk "u".toList (some "alice".toList) (some "tok".toList)))
        clientNameKey = truthyStr (some "alice".toList)
      ∧ hasHeaderKey (getHeaders (ClientState.mk "u".toList (some "alice".toList) (some "tok".toList)))
        tokenKey = truthyStr (some "tok".toList))
    ∧ hasHeaderKey (probeRequest b0).headers contentTypeKey = false := by
  constructor
  · have h := C5_headers_on_calls.1
      (ClientState.mk "u".toList (some "alice".toList) (some "tok".toList))
      ClientOp.listTools net0
      { method := "GET".toList
        url := "u".toList ++ "/api/tools".toList
        headers := getHeaders (ClientState.mk "u".toList (some "alice".toList) (some "tok".toList))
        body := none }
      (by simp [runOp])
    simpa using h
  · exact (C5_headers_on_calls.2 b0
      (ProbeOutcome.response { status := 200, statusText := [], bodyJson := some Json.null })
      (probeRequest b0) (by simp [testConnection])).1

/-- C8: every Initialize response echoes the request's protocol version,
advertises tool support in its capabilities, and carries the fixed server
info `MCP Router` / `0.0.2`; when the request has `clientInfo` with a
non-empty name, that name is stored through the identity setter,
overwriting any previous identity; without `clientInfo` the state is
unchanged. -/
theorem C8_initialize (st : ClientState) (p : InitializeParams) :
    (initializeHandler st p).2 =
      { protocolVersion := p.protocolVersion, capsTools := true
        serverInfoName := SERVER_NAME, serverInfoVersion := VERSION }
    ∧ SERVER_NAME = "MCP Router".toList ∧ VERSION = "0.0.2".toList
    ∧ (∀ ci, p.clientInfo = some ci → ci.name ≠ [] →
        (initializeHandler st p).1 = setClientInfo st ci.name)
    ∧ (p.clientInfo = none → (initializeHandler st p).1 = st) := by
  refine ⟨rfl, rfl, rfl, ?_, ?_⟩
  · intro ci hci hname
    simp [initializeHandler, hci, List.isEmpty_iff, hname]
  · intro hci
    simp [initializeHandler, hci]

/-- C8 witness: an Initialize request with protocol version `2024-11-05`
and client name `alice`, against a client whose identity was previously
`old`, yields the fixed-shape response and overwrites the identity. -/
theorem C8_initialize_witness :
    (initializeHandler (ClientState.mk "u".toList (some "old".toList) none)
        { protocolVersion := "2024-11-05".toList, clientInfo := some { name := "alice".toList } }).2 =
      { protocolVersion := "2024-11-05".toList, capsTools := true
        serverInfoName := SERVER_NAME, serverInfoVersion := VERSION }
    ∧ (initializeHandler (ClientState.mk "u".toList (some "old".toList) none)
        { protocolVersion := "2024-11-05".toList, clientInfo := some { name := "alice".toList } }).1 =
      setClientInfo (ClientState.mk "u".toList (some "old".toList) none) "alice".toList := by
  have h := C8_initialize (ClientState.mk "u".toList (some "old".toList) none)
    { protocolVersion := "2024-11-05".toList, clientInfo := some { name := "alice".toList } }
  exact ⟨h.1, h.2.2.2.1 { name := "alice".toList } rfl (by decide)⟩

/-- C2, behaviour of the code at the failing input: a GetPrompt request
for prompt `p` whose protocol-level `arguments` field is the mapping
x maps to 1 (and which carries no extra `args` key) is forwarded with the
EMPTY object body — the handler reads `request.params.args`, which the
protocol schema never populates — even though the serialization of the
request's arguments is a different string.  The CallTool handler, which
reads the correct field, forwards the same mapping faithfully. -/
theorem C2_get_prompt_drops_arguments :
    (getPromptHandler st0
        { name := ['p'], arguments := some (Json.obj [("x".toList, Json.num 1)]), args := none }
        net0).1 =
      [{ method := "POST".toList
         url := st0.baseUrl ++ ("/api/prompt/".toList ++ encodeURIComponent ['p'])
         headers := getHeaders st0
         body := some [Char.ofNat 123, Char.ofNat 125] }]
    ∧ jsonStringify (Json.obj [("x".toList, Json.num 1)]) ≠ [Char.ofNat 123, Char.ofNat 125]
    ∧ (callToolHandler st0
        { name := ['t'], arguments := some (Json.obj [("x".toList, Json.num 1)]) }
        net0).1 =
      [{ method := "POST".toList
         url := st0.baseUrl ++ ("/api/tool-by-name/".toList ++ encodeURIComponent ['t'])
         headers := getHeaders st0
         body := some (jsonStringify (Json.obj [("x".toList, Json.num 1)])) }] := by
  refine ⟨by decide, by decide, by decide⟩

/-- C7: the probe timeout constant is 5000 ms; each of the four classified
probe failures (connection refused, abort after the timeout, non-success
HTTP status, JSON-parse failure of the probe body) makes `start()` exit
with status 1 — never reaching the serving state — after issuing exactly
one probe request (so the probe is never retried); and the four failure
messages are pairwise distinct for all parameter values. -/
theorem C7_probe_failures :
    probeTimeoutMs = 5000
    ∧ (∀ b : BridgeState, start b ProbeOutcome.connRefused =
        ([probeRequest b], StartOutcome.exited 1
          ("Failed to start MCP Bridge Server: ".toList ++ refusedMsg b.baseUrl)))
    ∧ (∀ b : BridgeState, start b ProbeOutcome.abortTimeout =
        ([probeRequest b], StartOutcome.exited 1
          ("Failed to start MCP Bridge Server: ".toList ++ timeoutMsg b.baseUrl)))
    ∧ (∀ (b : BridgeState) (r : HttpResponse), respOk r = false →
        start b (ProbeOutcome.response r) =
        ([probeRequest b], StartOutcome.exited 1
          ("Failed to start MCP Bridge Server: ".toList ++ statusMsg r.status r.statusText)))
    ∧ (∀ (b : BridgeState) (r : HttpResponse), respOk r = true → r.bodyJson = none →
        start b (ProbeOutcome.response r) =
        ([probeRequest b], StartOutcome.exited 1
          ("Failed to start MCP Bridge Server: ".toList ++ parseFailMsg)))
    ∧ (∀ u v : List Char, refusedMsg u ≠ timeoutMsg v)
    ∧ (∀ (u : List Char) (s : Nat) (t : List Char), refusedMsg u ≠ statusMsg s t)
    ∧ (∀ u : List Char, refusedMsg u ≠ parseFailMsg)
    ∧ (∀ (v : List Char) (s : Nat) (t : List Char), timeoutMsg v ≠ statusMsg s t)
    ∧ (∀ v : List Char, timeoutMsg v ≠ parseFailMsg)
    ∧ (∀ (s : Nat) (t : List Char), statusMsg s t ≠ parseFailMsg) := by
  refine ⟨rfl, fun b => rfl, fun b => rfl, ?_, ?_, ?_, ?_, ?_, ?_, ?_, ?_⟩
  · intro b r hok
    simp [start, testConnection, hok]
  · intro b r hok hbody
    simp [start, testConnection, hok, hbody]
  · intro u v
    exact ne_of_getQ 11 (by rw [refusedMsg_get_eleven, timeoutMsg_get_eleven]; decide)
  · intro u s t
    exact ne_of_getQ 0 (by rw [refusedMsg_get_zero, statusMsg_get_zero]; decide)
  · intro u
    exact ne_of_getQ 0 (by rw [refusedMsg_get_zero, parseFailMsg_get_zero]; decide)
  · intro v s t
    exact ne_of_getQ 0 (by rw [timeoutMsg_get_zero, statusMsg_get_zero]; decide)
  · intro v
    exact ne_of_getQ 0 (by rw [timeoutMsg_get_zero, parseFailMsg_get_zero]; decide)
  · intro s t
    exact ne_of_getQ 0 (by rw [statusMsg_get_zero, parseFailMsg_get_zero]; decide)

/-- C7 witness: a 500 response and a JSON-less 200 response each make
`start` exit with status 1 after the single probe request. -/
theorem C7_probe_failures_witness :
    start b0 (ProbeOutcome.response { status := 500, statusText := [], bodyJson := none }) =
      ([probeRequest b0], StartOutcome.exited 1
        ("Failed to start MCP Bridge Server: ".toList ++ statusMsg 500 []))
    ∧ start b0 (ProbeOutcome.response { status := 200, statusText := [], bodyJson := none }) =
      ([probeRequest b0], StartOutcome.exited 1
        ("Failed to start MCP Bridge Server: ".toList ++ parseFailMsg)) :=
  ⟨C7_probe_failures.2.2.2.1 b0 { status := 500, statusText := [], bodyJson := none } (by decide),
   C7_probe_failures.2.2.2.2.1 b0 { status := 200, statusText := [], bodyJson := none }
     (by decide) rfl⟩

/-- Occurrence witness: the needle sits inside the first summand shape. -/
theorem containsSeg_shape (A B C n : List Char) : containsSeg ((A ++ (n ++ B)) ++ C) n :=
  ⟨A, B ++ C, by simp [List.append_assoc]⟩

/-- Occurrence witness when the needle is inside a concrete prefix. -/
theorem containsSeg_of_decomp (a b : List Char) {P M n : List Char}
    (h : P = a ++ (n ++ b)) : containsSeg (P ++ M) n :=
  ⟨a, b ++ M, by rw [h]; simp [List.append_assoc]⟩

/-- C6: when every remote response has status at least 400, every client
operation fails with a thrown error (first conjunct), and each of the six
Bridge Server handlers returns — rather than propagating — an McpError
with code `InternalError` whose message contains the operation's target
identifier (the tool name, prompt name or resource URI; for the list
operations, the name of the listing that failed). -/
theorem C6_status_error_wrapping :
    (∀ (st : ClientState) (op : ClientOp) (net : HttpRequest → HttpResponse),
      (∀ r, 400 ≤ (net r).status) → ∃ m, (runOp st op net).2 = Except.error m)
    ∧ (∀ (st : ClientState) (p : CallToolParams) (net : HttpRequest → HttpResponse),
      (∀ r, 400 ≤ (net r).status) →
      ∃ m, (callToolHandler st p net).2 =
          Except.error { code := internalErrorCode, message := m }
        ∧ containsSeg m p.name)
    ∧ (∀ (st : ClientState) (p : GetPromptParams) (net : HttpRequest → HttpResponse),
      (∀ r, 400 ≤ (net r).status) →
      ∃ m, (getPromptHandler st p net).2 =
          Except.error { code := internalErrorCode, message := m }
        ∧ containsSeg m p.name)
    ∧ (∀ (st : ClientState) (uri : List Char) (net : HttpRequest → HttpResponse),
      (∀ r, 400 ≤ (net r).status) →
      ∃ m, (readResourceHandler st uri net).2 =
          Except.error { code := internalErrorCode, message := m }
        ∧ containsSeg m uri)
    ∧ (∀ (st : ClientState) (net : HttpRequest → HttpResponse),
      (∀ r, 400 ≤ (net r).status) →
      ∃ m, (listToolsHandler st net).2 =
          Except.error { code := internalErrorCode, message := m }
        ∧ containsSeg m "listing tools".toList)
    ∧ (∀ (st : ClientState) (net : HttpRequest → HttpResponse),
      (∀ r, 400 ≤ (net r).status) →
      ∃ m, (listResourcesHandler st net).2 =
          Except.error { code := internalErrorCode, message := m }
        ∧ containsSeg m "listing resources".toList)
    ∧ (∀ (st : ClientState) (net : HttpRequest → HttpResponse),
      (∀ r, 400 ≤ (net r).status) →
      ∃ m, (listPromptsHandler st net).2 =
          Except.error { code := internalErrorCode, message := m }
        ∧ containsSeg m "listing prompts".toList) := by
  refine ⟨?_, ?_, ?_, ?_, ?_, ?_, ?_⟩
  · intro st op net hnet
    cases op with
    | listTools =>
      exact ⟨_, by simp only [runOp]; rw [respOk_false_of_ge (hnet _)]; rfl⟩
    | callTool name args =>
      exact ⟨_, by simp only [runOp]; rw [respOk_false_of_ge (hnet _)]; rfl⟩
    | listResources =>
      exact ⟨_, by simp only [runOp]; rw [respOk_false_of_ge (hnet _)]; rfl⟩
    | readResource uri =>
      cases hm : matchResourceUri uri with
      | none => exact ⟨_, by simp only [runOp, hm]; rfl⟩
      | some sp =>
        obtain ⟨s, p⟩ := sp
        exact ⟨_, by simp only [runOp, hm]; rw [respOk_false_of_ge (hnet _)]; rfl⟩
    | listPrompts =>
      exact ⟨_, by simp only [runOp]; rw [respOk_false_of_ge (hnet _)]; rfl⟩
    | getPrompt name args =>
      exact ⟨_, by simp only [runOp]; rw [respOk_false_of_ge (hnet _)]; rfl⟩
  · intro st p net hnet
    exact ⟨_,
      by simp only [callToolHandler, runOp]; rw [respOk_false_of_ge (hnet _)]; rfl,
      containsSeg_shape _ _ _ _⟩
  · intro st p net hnet
    exact ⟨_,
      by simp only [getPromptHandler, runOp]; rw [respOk_false_of_ge (hnet _)]; rfl,
      containsSeg_shape _ _ _ _⟩
  · intro st uri net hnet
    cases hm : matchResourceUri uri with
    | none =>
      exact ⟨_, by simp only [readResourceHandler, runOp, hm]; rfl,
        containsSeg_shape _ _ _ _⟩
    | some sp =>
      obtain ⟨s, p⟩ := sp
      exact ⟨_,
        by simp only [readResourceHandler, runOp, hm]; rw [respOk_false_of_ge (hnet _)]; rfl,
        containsSeg_shape _ _ _ _⟩
  · intro st net hnet
    exact ⟨_,
      by simp only [listToolsHandler, runOp]; rw [respOk_false_of_ge (hnet _)]; rfl,
      containsSeg_of_decomp "Error ".toList ": ".toList (by decide)⟩
  · intro st net hnet
    exact ⟨_,
      by simp only [listResourcesHandler, runOp]; rw [respOk_false_of_ge (hnet _)]; rfl,
      containsSeg_of_decomp "Error ".toList ": ".toList (by decide)⟩
  · intro st net hnet
    exact ⟨_,
      by simp only [listPromptsHandler, runOp]; rw [respOk_false_of_ge (hnet _)]; rfl,
      containsSeg_of_decomp "Error ".toList ": ".toList (by decide)⟩

/-- C6 witness, the spec scenario: the remote answers HTTP 500 for tool
`broken`; the CallTool handler returns an `InternalError` whose message
contains `broken`. -/
theorem C6_status_error_wrapping_witness :
    ∃ m, (callToolHandler st0 { name := "broken".toList, arguments := none } net500).2 =
        Except.error { code := internalErrorCode, message := m }
      ∧ containsSeg m "broken".toList :=
  C6_status_error_wrapping.2.1 st0 { name := "broken".toList, arguments := none } net500
    (fun _ => by simp [net500])

end Mcpr
